import Mathlib

/-!
Shallow embedding of kubesnake's embedded-configuration carrier mechanism
(internal/config: filefooter.go, load.go, embed.go, utils.go, config.go).

A file is modelled as its byte content, a `List Nat` whose entries are bytes
(values < 256; where the Go code relies on the byte type we reduce mod 256
explicitly), together with a permission mode carried as a plain `Nat`.
The filesystem functions of the Go code become pure functions from file
content to results; `Except String` models Go's `error` returns.
-/

namespace Kubesnake

/-- `footerMagic` from filefooter.go: the 16-byte constant
"KUBESNAKECFGv1\x00\x00", as byte values. -/
def footerMagic : List Nat :=
  [75, 85, 66, 69, 83, 78, 65, 75, 69, 67, 70, 71, 118, 49, 0, 0]

/-- `footerSize` from filefooter.go: 16 + 4 + 4 bytes. -/
def footerSize : Nat := 24

/-- `maxConfigSize` from filefooter.go: 256 KiB. -/
def maxConfigSize : Nat := 262144

/-- The `footer` struct of filefooter.go: a 16-byte magic ([16]byte) and two
uint32 fields.  The uint32 fields are carried as `Nat`; the Go type bounds
(< 2^32) appear as hypotheses where they matter. -/
structure Footer where
  magic : List Nat
  length : Nat
  crc32 : Nat
deriving DecidableEq, Repr

/-- `binary.LittleEndian.PutUint32`: the four little-endian bytes of a
uint32 value (reduction mod 2^32 is performed bytewise, matching the
truncation of Go's uint32 conversion). -/
def putUint32LE (n : Nat) : List Nat :=
  [n % 256, n / 256 % 256, n / 65536 % 256, n / 16777216 % 256]

/-- `binary.LittleEndian.Uint32` applied to the first four bytes of a
buffer: assemble a uint32 from four little-endian bytes.  Each entry is
reduced mod 256 because Go reads them at byte type. -/
def getUint32LE (l : List Nat) : Nat :=
  l.getD 0 0 % 256 + 256 * (l.getD 1 0 % 256) + 65536 * (l.getD 2 0 % 256)
    + 16777216 * (l.getD 3 0 % 256)

/-- The IEEE CRC-32 polynomial in reflected (LSB-first) form, as used by
Go's hash/crc32 package (crc32.IEEE table generator). -/
def crcPoly : Nat := 0xEDB88320

/-- One bit-step of the reflected CRC-32 update loop of hash/crc32's
simpleUpdate: shift right one bit, conditionally xor the polynomial when
the low bit was set. -/
def crcStep1 (s : Nat) : Nat :=
  (s / 2) ^^^ (if s % 2 = 1 then crcPoly else 0)

/-- `n` iterations of `crcStep1`. -/
def crcStepN : Nat → Nat → Nat
  | 0, s => s
  | n + 1, s => crcStepN n (crcStep1 s)

/-- One byte-step of hash/crc32's simpleUpdate: xor the byte into the
state, then run eight bit-steps.  The byte is reduced mod 256 because Go
consumes it at byte type. -/
def crcUpdate (s b : Nat) : Nat := crcStepN 8 (s ^^^ b % 256)

/-- `crc32.ChecksumIEEE` from hash/crc32: initial state 0xFFFFFFFF, one
byte-step per input byte, final xor with 0xFFFFFFFF. -/
def crc32 (data : List Nat) : Nat :=
  (data.foldl crcUpdate 0xFFFFFFFF) ^^^ 0xFFFFFFFF

/-- The pure deserialization steps of `readFooter` (filefooter.go lines
76, 81, 82): magic is the first 16 bytes of the 24-byte buffer, length the
little-endian uint32 at offset 16, checksum the little-endian uint32 at
offset 20.  No semantic validation. -/
def decodeFooter (buf : List Nat) : Footer :=
  { magic := buf.take 16
    length := getUint32LE (buf.drop 16)
    crc32 := getUint32LE (buf.drop 20) }

/-- `writeFooter` from filefooter.go: a zero-initialized 24-byte buffer
receives the magic bytes (at most 16 of them, from a [16]byte in Go), then
the length and checksum as little-endian uint32 values. -/
def writeFooter (ft : Footer) : List Nat :=
  (ft.magic.take 16 ++ List.replicate (16 - ft.magic.length) 0)
    ++ putUint32LE ft.length ++ putUint32LE ft.crc32

/-- `readFooter` from filefooter.go: on a file shorter than 24 bytes,
report "no embedded config" (`none`); otherwise read the final 24 bytes,
decode them, and compare the magic against `footerMagic` — mismatch is
also "no embedded config", a match yields the decoded footer.  Seek and
read cannot fail on in-memory content, so the I/O error paths of the Go
code are not representable here. -/
def readFooter (bytes : List Nat) : Option Footer :=
  if bytes.length < footerSize then none
  else
    let ft := decodeFooter (bytes.drop (bytes.length - footerSize))
    if ft.magic = footerMagic then some ft else none

/-- `executableBaseSizeAndMode` from filefooter.go: the number of bytes of
the file that precede any embedded payload+footer, together with the
file's mode.  A file shorter than 24 bytes, or one without a matching
footer, is all base.  With a footer of length L, the base size is
size − 24 − L, computed in int64 in Go; a negative value is the
"invalid embedded config size" error. -/
def executableBaseSizeAndMode (bytes : List Nat) (mode : Nat) :
    Except String (Nat × Nat) :=
  let size := bytes.length
  if size < footerSize then .ok (size, mode)
  else
    match readFooter bytes with
    | none => .ok (size, mode)
    | some ft =>
        if (size : Int) - (footerSize : Int) - (ft.length : Int) < 0 then
          .error "invalid embedded config size"
        else .ok (size - footerSize - ft.length, mode)

/-- `loadEmbeddedConfigData` from load.go.  Result `.ok none` is the
Go return (nil, false, nil) — no embedded config; `.ok (some raw)` is
(raw, true, nil); `.error` is a hard error.  The checks appear in the
source's order: size, footer magic, zero length, maximum size, offset
underflow, checksum. -/
def loadEmbeddedConfigData (bytes : List Nat) :
    Except String (Option (List Nat)) :=
  let size := bytes.length
  if size < footerSize then .ok none
  else
    match readFooter bytes with
    | none => .ok none
    | some ft =>
        if ft.length = 0 then .ok none
        else if ft.length > maxConfigSize then
          .error "embedded config too large"
        else if (size : Int) - (footerSize : Int) - (ft.length : Int) < 0 then
          .error "embedded config offset underflow"
        else
          let cfgOffset := size - footerSize - ft.length
          let raw := (bytes.drop cfgOffset).take ft.length
          if crc32 raw = ft.crc32 then .ok (some raw)
          else .error "embedded config checksum mismatch"

/-- The payload+footer tail that `EmbedConfigDataIntoExecutable` appends
for a payload: the footer's length field is uint32(len(config)) and its
checksum is `crc32.ChecksumIEEE(config)`. -/
def installedTail (config : List Nat) : List Nat :=
  config ++ writeFooter
    { magic := footerMagic
      length := config.length % 4294967296
      crc32 := crc32 config }

/-- `EmbedConfigDataIntoExecutable` from embed.go, as a pure function from
the target file's content and mode to the replacement file's content and
mode.  Empty and oversized payloads are rejected before the base-size
computation (in the Go code, before any filesystem operation).  On
success the new content is the first baseSize bytes of the original
followed by the payload and a fresh footer, and the original mode is
propagated (chmod of the temp file, plus the best-effort final chmod). -/
def EmbedConfigDataIntoExecutable (bytes : List Nat) (mode : Nat)
    (config : List Nat) : Except String (List Nat × Nat) :=
  if config.length = 0 then .error "config is empty"
  else if config.length > maxConfigSize then .error "config too large"
  else
    match executableBaseSizeAndMode bytes mode with
    | .error e => .error e
    | .ok (baseSize, mode) =>
        .ok (bytes.take baseSize ++ installedTail config, mode)

/-- The content and mode at the target path after an install attempt: the
Go code mutates the target only by the final rename, so a failed install
(error return) leaves the target file exactly as it was. -/
def embedResultFile (bytes : List Nat) (mode : Nat) (config : List Nat) :
    List Nat × Nat :=
  match EmbedConfigDataIntoExecutable bytes mode config with
  | .ok r => r
  | .error _ => (bytes, mode)

/-! ### Configuration schema and strict JSON parsing

`parseConfigJSON` (utils.go) feeds the raw bytes to `encoding/json`'s
`Decoder` with `DisallowUnknownFields`, decoding one `Config` and then
requiring end of input.  We model the decoder at the level of parsed JSON
values: the input is the stream of complete JSON documents the bytes
contain, and Go's `Decode` into the `Config`/`E2EConfig` structs is
modelled value by value. -/

/-- A parsed JSON value.  Numbers carry their literal text, which the
config schema never accepts, so their numeric value is irrelevant. -/
inductive Json where
  | null
  | bool (b : Bool)
  | num (lit : String)
  | str (s : String)
  | arr (elems : List Json)
  | obj (members : List (String × Json))
deriving Repr

/-- `E2EConfig` from config.go: one string field tagged "beaconUrl". -/
structure E2EConfig where
  beaconUrl : String
deriving DecidableEq, Repr

/-- `Config` from config.go: one pointer field (`*E2EConfig`, modelled as
`Option`) tagged "e2e". -/
structure Config where
  e2e : Option E2EConfig
deriving DecidableEq, Repr

/-- ASCII lower-casing of one character, as in the case folding
encoding/json applies when matching object keys to struct field tags. -/
def lowerChar (c : Char) : Char :=
  if 65 ≤ c.toNat ∧ c.toNat ≤ 90 then Char.ofNat (c.toNat + 32) else c

/-- Key matching of encoding/json: an incoming object key matches a
struct field by exact or case-insensitive comparison with the field's
tag (`strings.EqualFold`, modelled as case folding per character). -/
def jsonKeyMatches (k tag : String) : Bool :=
  k.toList.map lowerChar = tag.toList.map lowerChar

/-- Go space predicate of `unicode.IsSpace` as used by
`strings.TrimSpace`, for the Latin-1 range plus the Unicode White_Space
code points. -/
def isGoSpace (c : Char) : Bool :=
  c.toNat = 0x20 || c.toNat = 0x9 || c.toNat = 0xa || c.toNat = 0xb ||
  c.toNat = 0xc || c.toNat = 0xd || c.toNat = 0x85 || c.toNat = 0xa0 ||
  c.toNat = 0x1680 || (0x2000 ≤ c.toNat && c.toNat ≤ 0x200a) ||
  c.toNat = 0x2028 || c.toNat = 0x2029 || c.toNat = 0x202f ||
  c.toNat = 0x205f || c.toNat = 0x3000

/-- `strings.TrimSpace`: drop leading and trailing space characters. -/
def goTrimSpace (s : String) : String :=
  String.mk (((s.toList.dropWhile isGoSpace).reverse.dropWhile
    isGoSpace).reverse)

/-- `(*Config).E2EBeaconURL` from config.go: empty string on a nil
receiver or nil E2E field, otherwise the trimmed beacon URL. -/
def E2EBeaconURL (c : Option Config) : String :=
  match c with
  | none => ""
  | some cfg =>
      match cfg.e2e with
      | none => ""
      | some e => goTrimSpace e.beaconUrl

/-- encoding/json decode of an object into an `E2EConfig` value with
`DisallowUnknownFields`: members are processed in order; a key matching
"beaconUrl" must hold a string (which replaces the field) or null (which
leaves it unchanged); any other key is an unknown-field error. -/
def decodeE2EObj : E2EConfig → List (String × Json) → Except String E2EConfig
  | e, [] => .ok e
  | e, (k, v) :: rest =>
      if jsonKeyMatches k "beaconUrl" then
        match v with
        | .null => decodeE2EObj e rest
        | .str s => decodeE2EObj { beaconUrl := s } rest
        | _ => .error "cannot unmarshal value into Go struct field of type string"
      else .error ("unknown field " ++ k)

/-- encoding/json decode of a value into the `*E2EConfig` field: null
sets the pointer to nil; an object decodes into the pointed-to struct,
allocating a zero value when the pointer is nil; any other value is a
type error. -/
def decodeE2EPtr (cur : Option E2EConfig) (v : Json) :
    Except String (Option E2EConfig) :=
  match v with
  | .null => .ok none
  | .obj kvs =>
      match decodeE2EObj (cur.getD { beaconUrl := "" }) kvs with
      | .ok e => .ok (some e)
      | .error err => .error err
  | _ => .error "cannot unmarshal value into Go struct field of type E2EConfig"

/-- encoding/json decode of an object's members into a `Config` with
`DisallowUnknownFields`: a key matching "e2e" decodes into the E2E
field; any other key is an unknown-field error. -/
def decodeConfigObj : Config → List (String × Json) → Except String Config
  | c, [] => .ok c
  | c, (k, v) :: rest =>
      if jsonKeyMatches k "e2e" then
        match decodeE2EPtr c.e2e v with
        | .ok e => decodeConfigObj { e2e := e } rest
        | .error err => .error err
      else .error ("unknown field " ++ k)

/-- encoding/json decode of one JSON document into `Config`: null leaves
the zero value, an object decodes member-wise, anything else is a type
error. -/
def decodeConfig (j : Json) : Except String Config :=
  match j with
  | .null => .ok { e2e := none }
  | .obj kvs => decodeConfigObj { e2e := none } kvs
  | _ => .error "cannot unmarshal value into Go value of type Config"

/-- `parseConfigJSON` from utils.go over the input's stream of complete
JSON documents: the first `Decode` call consumes one document (end of
input there is an error), and the second `Decode` must hit EOF — any
further document is the "trailing data" error. -/
def parseConfigJSON (docs : List Json) : Except String Config :=
  match docs with
  | [] => .error "config is not valid JSON: EOF"
  | d :: rest =>
      match decodeConfig d with
      | .error e => .error ("config is not valid JSON: " ++ e)
      | .ok cfg =>
          if rest.isEmpty then .ok cfg
          else .error "config is not valid JSON: trailing data"

/-- A document holds a key outside the recognized schema: a top-level
member whose key does not match "e2e", or, under a matching "e2e" key
whose value is an object, a member whose key does not match
"beaconUrl".  (These two object levels are the only places the schema
recognizes keys at all.) -/
def hasUnrecognizedKey (j : Json) : Bool :=
  match j with
  | .obj kvs =>
      kvs.any fun kv =>
        !jsonKeyMatches kv.1 "e2e" ||
          (match kv.2 with
           | .obj kvs2 => kvs2.any fun kv2 => !jsonKeyMatches kv2.1 "beaconUrl"
           | _ => false)
  | _ => false

/-! ### Arithmetic facts about the CRC-32 state machine -/

/-- Xor keeps 32-bit values 32-bit. -/
theorem xor_lt_4294967296 {a b : Nat} (ha : a < 4294967296)
    (hb : b < 4294967296) : a ^^^ b < 4294967296 := by
  have h32 : (4294967296 : Nat) = 2 ^ 32 := by norm_num
  rw [h32] at ha hb ⊢
  exact Nat.xor_lt_two_pow ha hb

/-- Cancel a common xor operand on the right. -/
theorem xor_right_cancel {a b m : Nat} (h : a ^^^ m = b ^^^ m) : a = b := by
  have ha := Nat.xor_cancel_right m a
  have hb := Nat.xor_cancel_right m b
  rw [← ha, ← hb, h]

/-- Cancel a common xor operand on the left. -/
theorem xor_left_cancel {a b m : Nat} (h : m ^^^ a = m ^^^ b) : a = b := by
  rw [Nat.xor_comm m a, Nat.xor_comm m b] at h
  exact xor_right_cancel h

theorem crcStep1_lt {s : Nat} (h : s < 4294967296) :
    crcStep1 s < 4294967296 := by
  unfold crcStep1
  have h1 : s / 2 < 4294967296 := by omega
  split
  · exact xor_lt_4294967296 h1 (by norm_num [crcPoly])
  · simpa using h1

/-- Bit 31 of a bit-step output records the parity of the input state,
because the polynomial has its top bit set while the shifted state does
not. -/
theorem crcStep1_testBit31 {s : Nat} (h : s < 4294967296) :
    (crcStep1 s).testBit 31 = decide (s % 2 = 1) := by
  have hdiv : (s / 2).testBit 31 = false := by
    rw [Nat.testBit_div_two]
    exact Nat.testBit_lt_two_pow (by omega)
  unfold crcStep1
  by_cases hp : s % 2 = 1
  · simp only [hp, if_pos, Nat.testBit_xor, hdiv, decide_eq_true_eq]
    decide
  · simp [hp, Nat.testBit_xor, hdiv]

/-- A bit-step is injective on 32-bit states. -/
theorem crcStep1_inj {a b : Nat} (ha : a < 4294967296)
    (hb : b < 4294967296) (h : crcStep1 a = crcStep1 b) : a = b := by
  have hbit := congrArg (fun x => x.testBit 31) h
  simp only [crcStep1_testBit31 ha, crcStep1_testBit31 hb] at hbit
  have hpar : a % 2 = b % 2 := by
    by_cases hA : a % 2 = 1
    · by_cases hB : b % 2 = 1
      · omega
      · simp [hA, hB] at hbit
    · by_cases hB : b % 2 = 1
      · simp [hA, hB] at hbit
      · omega
  unfold crcStep1 at h
  rw [hpar] at h
  have hdiv : a / 2 = b / 2 := by
    by_cases hp : b % 2 = 1
    · rw [if_pos hp] at h
      exact xor_right_cancel h
    · rw [if_neg hp] at h
      simpa using h
  omega

theorem crcStepN_lt {n s : Nat} (h : s < 4294967296) :
    crcStepN n s < 4294967296 := by
  induction n generalizing s with
  | zero => exact h
  | succ n ih => exact ih (crcStep1_lt h)

theorem crcStepN_inj {n a b : Nat} (ha : a < 4294967296)
    (hb : b < 4294967296) (h : crcStepN n a = crcStepN n b) : a = b := by
  induction n generalizing a b with
  | zero => exact h
  | succ n ih =>
      exact crcStep1_inj ha hb (ih (crcStep1_lt ha) (crcStep1_lt hb) h)

theorem crcUpdate_lt {s : Nat} (b : Nat) (h : s < 4294967296) :
    crcUpdate s b < 4294967296 :=
  crcStepN_lt (xor_lt_4294967296 h (by omega))

/-- A byte-step is injective in the state. -/
theorem crcUpdate_inj {s t : Nat} (b : Nat) (hs : s < 4294967296)
    (ht : t < 4294967296) (h : crcUpdate s b = crcUpdate t b) : s = t := by
  have := crcStepN_inj (xor_lt_4294967296 hs (by omega))
    (xor_lt_4294967296 ht (by omega)) h
  exact xor_right_cancel this

/-- A byte-step separates distinct bytes fed into the same state. -/
theorem crcUpdate_ne_of_byte_ne {s b1 b2 : Nat} (hs : s < 4294967296)
    (h1 : b1 < 256) (h2 : b2 < 256) (hne : b1 ≠ b2) :
    crcUpdate s b1 ≠ crcUpdate s b2 := by
  intro h
  have hx := crcStepN_inj (xor_lt_4294967296 hs (by omega))
    (xor_lt_4294967296 hs (by omega)) h
  have := xor_left_cancel hx
  omega

theorem foldl_crcUpdate_lt {l : List Nat} {s : Nat} (h : s < 4294967296) :
    List.foldl crcUpdate s l < 4294967296 := by
  induction l generalizing s with
  | nil => exact h
  | cons b l ih => exact ih (crcUpdate_lt b h)

/-- Running the same byte sequence from distinct 32-bit states ends in
distinct states. -/
theorem foldl_crcUpdate_ne {l : List Nat} {s t : Nat}
    (hs : s < 4294967296) (ht : t < 4294967296) (hne : s ≠ t) :
    List.foldl crcUpdate s l ≠ List.foldl crcUpdate t l := by
  induction l generalizing s t with
  | nil => exact hne
  | cons b l ih =>
      exact ih (crcUpdate_lt b hs) (crcUpdate_lt b ht)
        (fun h => hne (crcUpdate_inj b hs ht h))

theorem crc32_lt (l : List Nat) : crc32 l < 4294967296 :=
  xor_lt_4294967296 (foldl_crcUpdate_lt (by norm_num)) (by norm_num)

/-- CRC-32 detects every single-byte change: replacing the byte at a
position of a byte list with a different byte value changes the
checksum. -/
theorem crc32_set_ne (P : List Nat) (i v : Nat) (hi : i < P.length)
    (hv : v < 256) (hPb : ∀ b ∈ P, b < 256) (hne : v ≠ P.get ⟨i, hi⟩) :
    crc32 (P.set i v) ≠ crc32 P := by
  have hset : P.set i v = P.take i ++ v :: P.drop (i + 1) :=
    List.set_eq_take_cons_drop v hi
  have hself : P = P.take i ++ P.get ⟨i, hi⟩ :: P.drop (i + 1) := by
    conv_lhs => rw [← List.take_append_drop i P]
    rw [List.drop_eq_getElem_cons hi]
    rfl
  intro h
  unfold crc32 at h
  have hfold := xor_right_cancel h
  rw [hset] at hfold
  conv_rhs at hfold => rw [hself]
  rw [List.foldl_append, List.foldl_append] at hfold
  set s0 := List.foldl crcUpdate 0xFFFFFFFF (P.take i) with hs0
  have hs0lt : s0 < 4294967296 := foldl_crcUpdate_lt (by norm_num)
  have hPi : P.get ⟨i, hi⟩ < 256 := hPb _ (P.get_mem i hi)
  simp only [List.foldl_cons] at hfold
  exact foldl_crcUpdate_ne (crcUpdate_lt _ hs0lt) (crcUpdate_lt _ hs0lt)
    (crcUpdate_ne_of_byte_ne hs0lt hv hPi hne) hfold

/-! ### Structural lemmas about the footer encoding and installed files -/

/-- The 24-byte trailer `EmbedConfigDataIntoExecutable` writes for a
payload within the size limit. -/
def trailerBytes (P : List Nat) : List Nat :=
  footerMagic ++ putUint32LE P.length ++ putUint32LE (crc32 P)

theorem trailerBytes_length (P : List Nat) :
    (trailerBytes P).length = 24 := by
  simp [trailerBytes, footerMagic, putUint32LE]

theorem getUint32LE_putUint32LE (n : Nat) (rest : List Nat)
    (h : n < 4294967296) : getUint32LE (putUint32LE n ++ rest) = n := by
  simp only [putUint32LE, List.cons_append, List.nil_append, getUint32LE,
    List.getD_cons_zero, List.getD_cons_succ]
  omega

theorem installedTail_eq (P : List Nat) (h : P.length < 4294967296) :
    installedTail P = P ++ trailerBytes P := by
  have hm : footerMagic.length = 16 := by decide
  simp [installedTail, writeFooter, trailerBytes, hm, Nat.mod_eq_of_lt h,
    List.take_of_length_le (le_of_eq hm)]

/-- Scanning any file ending in a freshly written trailer finds the
trailer and decodes the written length and checksum. -/
theorem readFooter_append_trailer (pre P : List Nat)
    (h : P.length < 4294967296) :
    readFooter (pre ++ trailerBytes P)
      = some ⟨footerMagic, P.length, crc32 P⟩ := by
  have hlen : (pre ++ trailerBytes P).length = pre.length + 24 := by
    simp [trailerBytes_length]
  have hdrop : (pre ++ trailerBytes P).drop
      ((pre ++ trailerBytes P).length - footerSize) = trailerBytes P := by
    rw [hlen]
    show (pre ++ trailerBytes P).drop (pre.length + 24 - 24) = trailerBytes P
    rw [Nat.add_sub_cancel]
    exact List.drop_left pre (trailerBytes P)
  have hdec : decodeFooter (trailerBytes P)
      = ⟨footerMagic, P.length, crc32 P⟩ := by
    unfold decodeFooter trailerBytes
    have htake : ((footerMagic ++ putUint32LE P.length)
        ++ putUint32LE (crc32 P)).take 16 = footerMagic := by
      rw [List.append_assoc]
      have : (16 : Nat) = footerMagic.length := by decide
      rw [this]
      exact List.take_left footerMagic _
    have hdrop16 : ((footerMagic ++ putUint32LE P.length)
        ++ putUint32LE (crc32 P)).drop 16
        = putUint32LE P.length ++ putUint32LE (crc32 P) := by
      rw [List.append_assoc]
      have : (16 : Nat) = footerMagic.length := by decide
      rw [this]
      exact List.drop_left footerMagic _
    have hdrop20 : ((footerMagic ++ putUint32LE P.length)
        ++ putUint32LE (crc32 P)).drop 20 = putUint32LE (crc32 P) := by
      have : (20 : Nat) = (footerMagic ++ putUint32LE P.length).length := by
        simp [footerMagic, putUint32LE]
      rw [this]
      exact List.drop_left _ _
    rw [List.append_assoc] at htake hdrop16 hdrop20 ⊢
    rw [htake, hdrop16, hdrop20]
    rw [getUint32LE_putUint32LE _ _ h]
    have hc : getUint32LE (putUint32LE (crc32 P)) = crc32 P := by
      rw [← List.append_nil (putUint32LE (crc32 P))]
      exact getUint32LE_putUint32LE _ _ (crc32_lt P)
    rw [hc]
  unfold readFooter
  rw [if_neg (by rw [hlen]; unfold footerSize; omega), hdrop, hdec,
    if_pos rfl]

/-- Scanning a file of the shape base ++ payload ++ trailer finds the
trailer and decodes the written length and checksum. -/
theorem readFooter_installed (base P : List Nat)
    (h : P.length < 4294967296) :
    readFooter (base ++ P ++ trailerBytes P)
      = some ⟨footerMagic, P.length, crc32 P⟩ :=
  readFooter_append_trailer (base ++ P) P h

/-- Loading a file of the shape base ++ payload ++ trailer returns the
payload, for payloads within the size bounds. -/
theorem load_installed (base P : List Nat) (h1 : 1 ≤ P.length)
    (h2 : P.length ≤ maxConfigSize) :
    loadEmbeddedConfigData (base ++ P ++ trailerBytes P) = .ok (some P) := by
  have h32 : P.length < 4294967296 := by
    unfold maxConfigSize at h2; omega
  have hlen : (base ++ P ++ trailerBytes P).length
      = base.length + P.length + 24 := by
    simp [trailerBytes_length]
    omega
  unfold loadEmbeddedConfigData
  rw [readFooter_installed base P h32]
  rw [if_neg (by rw [hlen]; unfold footerSize; omega)]
  simp only
  rw [if_neg (by omega), if_neg (by unfold maxConfigSize at h2 ⊢; omega),
    if_neg (by rw [hlen]; unfold footerSize; push_cast; omega)]
  have hoff : (base ++ P ++ trailerBytes P).length - footerSize - P.length
      = base.length := by
    rw [hlen]; unfold footerSize; omega
  rw [hoff]
  have hdrop : (base ++ P ++ trailerBytes P).drop base.length
      = P ++ trailerBytes P := by
    rw [List.append_assoc]
    exact List.drop_left base _
  rw [hdrop]
  have htake : (P ++ trailerBytes P).take P.length = P :=
    List.take_left P _
  rw [htake, if_pos rfl]

/-- A successful footer scan implies the file holds at least 24 bytes. -/
theorem readFooter_some_length {f : List Nat} {ft : Footer}
    (h : readFooter f = some ft) : footerSize ≤ f.length := by
  unfold readFooter at h
  by_cases hlt : f.length < footerSize
  · rw [if_pos hlt] at h
    exact absurd h (by simp)
  · omega

/-- Footer length fields decoded from a file are uint32 values. -/
theorem readFooter_length_lt {f : List Nat} {ft : Footer}
    (h : readFooter f = some ft) : ft.length < 4294967296 := by
  unfold readFooter at h
  by_cases hlt : f.length < footerSize
  · rw [if_pos hlt] at h
    exact absurd h (by simp)
  · rw [if_neg hlt] at h
    set ftd := decodeFooter (f.drop (f.length - footerSize)) with hftd
    by_cases hm : ftd.magic = footerMagic
    · rw [if_pos hm] at h
      have hft : ft = ftd := by
        injection h with h2
        exact h2.symm
      rw [hft, hftd]
      dsimp only [decodeFooter, getUint32LE]
      omega
    · rw [if_neg hm] at h
      exact absurd h (by simp)

/-- On a file without a recognized trailer, the whole file is base. -/
theorem baseSize_fresh (O : List Nat) (m : Nat)
    (hf : readFooter O = none) :
    executableBaseSizeAndMode O m = .ok (O.length, m) := by
  unfold executableBaseSizeAndMode
  by_cases hlt : O.length < footerSize
  · rw [if_pos hlt]
  · rw [if_neg hlt]
    simp only [hf]

/-- Installing a valid payload into a file without a recognized trailer
appends the payload and a fresh trailer to the whole file. -/
theorem embed_fresh (O : List Nat) (m : Nat) (P : List Nat)
    (hf : readFooter O = none) (h1 : 1 ≤ P.length)
    (h2 : P.length ≤ maxConfigSize) :
    EmbedConfigDataIntoExecutable O m P = .ok (O ++ P ++ trailerBytes P, m) := by
  have h32 : P.length < 4294967296 := by unfold maxConfigSize at h2; omega
  unfold EmbedConfigDataIntoExecutable
  rw [if_neg (by omega), if_neg (by omega), baseSize_fresh O m hf]
  simp only [List.take_length, installedTail_eq P h32, List.append_assoc]

/-- Installing a valid payload into a file carrying a recognized trailer
whose claimed length fits keeps exactly the base bytes (size minus the
old payload and trailer) and appends the payload and a fresh trailer —
regardless of whether the old trailer's length field respects the
maximum size or its checksum matches. -/
theorem embed_withFooter (f : List Nat) (m : Nat) (P : List Nat)
    (ft : Footer) (hf : readFooter f = some ft)
    (hoff : 0 ≤ (f.length : Int) - (footerSize : Int) - (ft.length : Int))
    (h1 : 1 ≤ P.length) (h2 : P.length ≤ maxConfigSize) :
    EmbedConfigDataIntoExecutable f m P
      = .ok (f.take (f.length - footerSize - ft.length) ++ P
          ++ trailerBytes P, m) := by
  have h32 : P.length < 4294967296 := by unfold maxConfigSize at h2; omega
  have hsz := readFooter_some_length hf
  unfold EmbedConfigDataIntoExecutable executableBaseSizeAndMode
  rw [if_neg (by omega), if_neg (by omega), if_neg (by omega)]
  simp only [hf]
  rw [if_neg (by omega)]
  simp only [installedTail_eq P h32, List.append_assoc]

/-! ### Lemmas about the strict JSON decoding -/

/-- A successful strict decode of an object into `E2EConfig` visited only
members whose key matches "beaconUrl". -/
theorem decodeE2EObj_ok_keys {kvs : List (String × Json)}
    {e e' : E2EConfig} (h : decodeE2EObj e kvs = .ok e') :
    ∀ kv ∈ kvs, jsonKeyMatches kv.1 "beaconUrl" = true := by
  induction kvs generalizing e with
  | nil => intro kv hkv; cases hkv
  | cons hd tl ih =>
      obtain ⟨k, v⟩ := hd
      intro kv hkv
      unfold decodeE2EObj at h
      by_cases hk : jsonKeyMatches k "beaconUrl"
      · rw [if_pos hk] at h
        rcases List.mem_cons.mp hkv with heq | hmem
        · subst heq
          exact hk
        · cases v with
          | null => exact ih h kv hmem
          | str s => exact ih h kv hmem
          | bool b => exact absurd h (by simp)
          | num lit => exact absurd h (by simp)
          | arr elems => exact absurd h (by simp)
          | obj members => exact absurd h (by simp)
      · rw [if_neg hk] at h
        exact absurd h (by simp)

/-- A successful strict decode of an object into `Config` visited only
members whose key matches "e2e", and under each such member that is
itself an object, only members whose key matches "beaconUrl". -/
theorem decodeConfigObj_ok_keys {kvs : List (String × Json)}
    {c c' : Config} (h : decodeConfigObj c kvs = .ok c') :
    ∀ kv ∈ kvs, jsonKeyMatches kv.1 "e2e" = true ∧
      (∀ kvs2, kv.2 = Json.obj kvs2 →
        ∀ kv2 ∈ kvs2, jsonKeyMatches kv2.1 "beaconUrl" = true) := by
  induction kvs generalizing c with
  | nil => intro kv hkv; cases hkv
  | cons hd tl ih =>
      obtain ⟨k, v⟩ := hd
      intro kv hkv
      unfold decodeConfigObj at h
      by_cases hk : jsonKeyMatches k "e2e"
      · rw [if_pos hk] at h
        rcases hv : decodeE2EPtr c.e2e v with msg | e2
        · rw [hv] at h
          exact absurd h (by simp)
        · rw [hv] at h
          rcases List.mem_cons.mp hkv with heq | hmem
          · subst heq
            refine ⟨hk, ?_⟩
            intro kvs2 hv2 kv2 hkv2
            have hv2' : v = Json.obj kvs2 := hv2
            rw [hv2'] at hv
            unfold decodeE2EPtr at hv
            dsimp only at hv
            rcases hobj : decodeE2EObj (c.e2e.getD ⟨""⟩) kvs2 with msg2 | e3
            · rw [hobj] at hv
              exact absurd hv (by simp)
            · exact decodeE2EObj_ok_keys hobj kv2 hkv2
          · exact ih h kv hmem
      · rw [if_neg hk] at h
        exact absurd h (by simp)

/-- Loading a carrier whose payload region no longer matches the stored
checksum is the checksum-mismatch hard error. -/
theorem load_payload_mismatch (B Q P : List Nat)
    (hQ : Q.length = P.length) (h1 : 1 ≤ P.length)
    (h2 : P.length ≤ maxConfigSize) (hcrc : crc32 Q ≠ crc32 P) :
    loadEmbeddedConfigData (B ++ Q ++ trailerBytes P)
      = .error "embedded config checksum mismatch" := by
  have h32 : P.length < 4294967296 := by unfold maxConfigSize at h2; omega
  have hlen : (B ++ Q ++ trailerBytes P).length
      = B.length + P.length + 24 := by
    simp [trailerBytes_length, hQ]
    omega
  unfold loadEmbeddedConfigData
  rw [readFooter_append_trailer (B ++ Q) P h32]
  rw [if_neg (by rw [hlen]; unfold footerSize; omega)]
  simp only
  rw [if_neg (by omega), if_neg (by unfold maxConfigSize at h2 ⊢; omega),
    if_neg (by rw [hlen]; unfold footerSize; push_cast; omega)]
  have hoff : (B ++ Q ++ trailerBytes P).length - footerSize - P.length
      = B.length := by
    rw [hlen]; unfold footerSize; omega
  rw [hoff]
  have hdrop : (B ++ Q ++ trailerBytes P).drop B.length
      = Q ++ trailerBytes P := by
    rw [List.append_assoc]
    exact List.drop_left B _
  rw [hdrop]
  have htake : (Q ++ trailerBytes P).take P.length = Q := by
    rw [← hQ]
    exact List.take_left Q _
  rw [htake, if_neg hcrc]

/-! ### The claims -/

/-- C1: Round-trip — for every payload P with 1 ≤ |P| ≤ 262144 bytes and
every fresh carrier file (no recognized trailer), installing P via
`EmbedConfigDataIntoExecutable` and loading from the resulting file via
`loadEmbeddedConfigData` succeeds and returns bytes identical to P (and
the file's mode is preserved). -/
theorem c1_round_trip (O P : List Nat) (m : Nat)
    (hfresh : readFooter O = none) (h1 : 1 ≤ P.length)
    (h2 : P.length ≤ maxConfigSize) :
    ∃ f : List Nat,
      EmbedConfigDataIntoExecutable O m P = .ok (f, m) ∧
      loadEmbeddedConfigData f = .ok (some P) :=
  ⟨O ++ P ++ trailerBytes P, embed_fresh O m P hfresh h1 h2,
    load_installed O P h1 h2⟩

theorem c1_round_trip_witness :
    ∃ f : List Nat,
      EmbedConfigDataIntoExecutable [72, 73] 493 [10, 20, 30]
        = .ok (f, 493) ∧
      loadEmbeddedConfigData f = .ok (some [10, 20, 30]) :=
  c1_round_trip [72, 73] [10, 20, 30] 493 (by decide) (by decide)
    (by decide)

/-- C2: Re-install replaces, not appends — on an original file with no
recognized trailer, installing payload A and then payload B2 yields
exactly originalBytes ++ B2 ++ trailer(B2): the base bytes equal the
original file's bytes and the recoverable payload is exactly B2. -/
theorem c2_reinstall_replaces (O A B2 : List Nat) (m : Nat)
    (hfresh : readFooter O = none)
    (hA1 : 1 ≤ A.length) (hA2 : A.length ≤ maxConfigSize)
    (hB1 : 1 ≤ B2.length) (hB2 : B2.length ≤ maxConfigSize) :
    ∃ f1 : List Nat,
      EmbedConfigDataIntoExecutable O m A = .ok (f1, m) ∧
      EmbedConfigDataIntoExecutable f1 m B2
        = .ok (O ++ B2 ++ trailerBytes B2, m) ∧
      (O ++ B2 ++ trailerBytes B2).take O.length = O ∧
      loadEmbeddedConfigData (O ++ B2 ++ trailerBytes B2)
        = .ok (some B2) := by
  have hA32 : A.length < 4294967296 := by unfold maxConfigSize at hA2; omega
  refine ⟨O ++ A ++ trailerBytes A, embed_fresh O m A hfresh hA1 hA2,
    ?_, ?_, load_installed O B2 hB1 hB2⟩
  · have hsecond := embed_withFooter (O ++ A ++ trailerBytes A) m B2
      ⟨footerMagic, A.length, crc32 A⟩ (readFooter_installed O A hA32)
      (by simp [trailerBytes_length]; unfold footerSize; push_cast; omega)
      hB1 hB2
    rw [hsecond]
    dsimp only
    have hbase : (O ++ A ++ trailerBytes A).length - footerSize - A.length
        = O.length := by
      simp [trailerBytes_length]
      unfold footerSize
      omega
    rw [hbase]
    have htake : (O ++ A ++ trailerBytes A).take O.length = O := by
      rw [List.append_assoc]
      exact List.take_left O _
    rw [htake]
  · rw [List.append_assoc]
    exact List.take_left O _

theorem c2_reinstall_replaces_witness :
    ∃ f1 : List Nat,
      EmbedConfigDataIntoExecutable [66, 73, 78] 448 [11, 12]
        = .ok (f1, 448) ∧
      EmbedConfigDataIntoExecutable f1 448 [99]
        = .ok ([66, 73, 78] ++ [99] ++ trailerBytes [99], 448) ∧
      ([66, 73, 78] ++ [99] ++ trailerBytes [99]).take 3 = [66, 73, 78] ∧
      loadEmbeddedConfigData ([66, 73, 78] ++ [99] ++ trailerBytes [99])
        = .ok (some [99]) :=
  c2_reinstall_replaces [66, 73, 78] [11, 12] [99] 448 (by decide)
    (by decide) (by decide) (by decide) (by decide)

/-- C3: Corruption detection — on a correctly installed carrier
base ++ P ++ trailer(P), changing any single payload byte (position i,
new value v ≠ P[i]) makes `loadEmbeddedConfigData` fail with the
checksum-mismatch hard error: it neither returns the corrupted bytes nor
reports absence. -/
theorem c3_corruption_detected (B P : List Nat) (i v : Nat)
    (h1 : 1 ≤ P.length) (h2 : P.length ≤ maxConfigSize)
    (hi : i < P.length) (hv : v < 256) (hPb : ∀ b ∈ P, b < 256)
    (hne : v ≠ P.get ⟨i, hi⟩) :
    loadEmbeddedConfigData (B ++ P.set i v ++ trailerBytes P)
      = .error "embedded config checksum mismatch" :=
  load_payload_mismatch B (P.set i v) P (List.length_set P i v) h1 h2
    (crc32_set_ne P i v hi hv hPb hne)

theorem c3_corruption_detected_witness :
    loadEmbeddedConfigData
        ([66] ++ [10, 20].set 0 11 ++ trailerBytes [10, 20])
      = .error "embedded config checksum mismatch" :=
  c3_corruption_detected [66] [10, 20] 0 11 (by decide) (by decide)
    (by decide) (by decide) (by decide) (by decide)

/-- C4: Input rejection without mutation — for a payload of length 0 or
above 262144, `EmbedConfigDataIntoExecutable` errors, the target file's
bytes and mode are unchanged, and the result does not depend on the
target file at all (the checks precede every filesystem operation). -/
theorem c4_invalid_payload_rejected (f f2 P : List Nat) (m m2 : Nat)
    (h : P.length = 0 ∨ maxConfigSize < P.length) :
    (∃ e, EmbedConfigDataIntoExecutable f m P = .error e) ∧
    embedResultFile f m P = (f, m) ∧
    EmbedConfigDataIntoExecutable f m P
      = EmbedConfigDataIntoExecutable f2 m2 P := by
  rcases h with h0 | hbig
  · refine ⟨⟨"config is empty", ?_⟩, ?_, ?_⟩ <;>
      simp [EmbedConfigDataIntoExecutable, embedResultFile, h0]
  · have hne : ¬P.length = 0 := by unfold maxConfigSize at hbig; omega
    refine ⟨⟨"config too large", ?_⟩, ?_, ?_⟩ <;>
      simp [EmbedConfigDataIntoExecutable, embedResultFile, hne, hbig]

theorem c4_invalid_payload_rejected_witness :
    ((∃ e, EmbedConfigDataIntoExecutable [1, 2] 493 [] = .error e) ∧
      embedResultFile [1, 2] 493 [] = ([1, 2], 493) ∧
      EmbedConfigDataIntoExecutable [1, 2] 493 []
        = EmbedConfigDataIntoExecutable [9] 448 []) ∧
    ((∃ e, EmbedConfigDataIntoExecutable [1, 2] 493
          (List.replicate 262145 0) = .error e) ∧
      embedResultFile [1, 2] 493 (List.replicate 262145 0) = ([1, 2], 493) ∧
      EmbedConfigDataIntoExecutable [1, 2] 493 (List.replicate 262145 0)
        = EmbedConfigDataIntoExecutable [9] 448 (List.replicate 262145 0)) :=
  ⟨c4_invalid_payload_rejected [1, 2] [9] [] 493 448 (Or.inl rfl),
    c4_invalid_payload_rejected [1, 2] [9] (List.replicate 262145 0) 493 448
      (Or.inr (by rw [List.length_replicate]; norm_num [maxConfigSize]))⟩

/-- C5: Absence is not an error — `loadEmbeddedConfigData` returns the
non-error "no payload" result when the file is shorter than 24 bytes,
when the first 16 of the final 24 bytes differ from the magic signature,
and when a valid-magic trailer has length field 0. -/
theorem c5_absence_not_error :
    (∀ f : List Nat, f.length < footerSize →
      loadEmbeddedConfigData f = .ok none) ∧
    (∀ f : List Nat, footerSize ≤ f.length →
      (f.drop (f.length - footerSize)).take 16 ≠ footerMagic →
      loadEmbeddedConfigData f = .ok none) ∧
    (∀ (f : List Nat) (ft : Footer), readFooter f = some ft →
      ft.length = 0 → loadEmbeddedConfigData f = .ok none) := by
  refine ⟨fun f h => ?_, fun f hge hmag => ?_, fun f ft hrf h0 => ?_⟩
  · unfold loadEmbeddedConfigData
    rw [if_pos h]
  · have hrf : readFooter f = none := by
      unfold readFooter
      rw [if_neg (by omega)]
      exact if_neg (by dsimp only [decodeFooter]; exact hmag)
    unfold loadEmbeddedConfigData
    rw [if_neg (by omega), hrf]
  · have hge := readFooter_some_length hrf
    unfold loadEmbeddedConfigData
    rw [if_neg (by omega), hrf]
    simp only
    rw [if_pos h0]

theorem c5_absence_not_error_witness :
    loadEmbeddedConfigData [1, 2, 3] = .ok none ∧
    loadEmbeddedConfigData (List.replicate 24 7) = .ok none ∧
    loadEmbeddedConfigData
        (footerMagic ++ putUint32LE 0 ++ putUint32LE 0) = .ok none :=
  ⟨c5_absence_not_error.1 [1, 2, 3] (by decide),
    c5_absence_not_error.2.1 (List.replicate 24 7) (by decide) (by decide),
    c5_absence_not_error.2.2 (footerMagic ++ putUint32LE 0 ++ putUint32LE 0)
      ⟨footerMagic, 0, 0⟩ (by decide) rfl⟩

/-- C6: Structural corruption is a hard error on load — with a
valid-magic trailer whose length field exceeds 262144, or whose implied
payload offset is negative, `loadEmbeddedConfigData` returns a hard
error (too-large or offset-underflow), never absence. -/
theorem c6_structural_corruption_errors (f : List Nat) (ft : Footer)
    (hft : readFooter f = some ft)
    (h : maxConfigSize < ft.length ∨
      (f.length : Int) - (footerSize : Int) - (ft.length : Int) < 0) :
    ∃ e, loadEmbeddedConfigData f = .error e ∧
      (e = "embedded config too large" ∨
        e = "embedded config offset underflow") := by
  have hge := readFooter_some_length hft
  have h0 : ¬ft.length = 0 := by
    intro h0
    rcases h with h | h
    · unfold maxConfigSize at h; omega
    · rw [h0] at h
      unfold footerSize at hge h
      push_cast at h
      omega
  unfold loadEmbeddedConfigData
  rw [if_neg (by omega), hft]
  simp only
  rw [if_neg h0]
  by_cases hbig : ft.length > maxConfigSize
  · rw [if_pos hbig]
    exact ⟨_, rfl, Or.inl rfl⟩
  · rw [if_neg hbig]
    have hoff : (f.length : Int) - (footerSize : Int) - (ft.length : Int)
        < 0 := by
      rcases h with h | h
      · omega
      · exact h
    rw [if_pos hoff]
    exact ⟨_, rfl, Or.inr rfl⟩

theorem c6_structural_corruption_errors_witness :
    ∃ e, loadEmbeddedConfigData
        (footerMagic ++ putUint32LE 1234 ++ putUint32LE 7) = .error e ∧
      (e = "embedded config too large" ∨
        e = "embedded config offset underflow") :=
  c6_structural_corruption_errors
    (footerMagic ++ putUint32LE 1234 ++ putUint32LE 7)
    ⟨footerMagic, 1234, 7⟩ (by decide) (Or.inr (by decide))

/-- C7: The footer codec's decode is a pure inverse of encode with no
semantic validation — for any trailer record with a 16-byte magic and
uint32 length and checksum fields, decoding the 24 encoded bytes
returns the record unchanged, whatever the magic holds. -/
theorem c7_codec_roundtrip (ft : Footer) (hm : ft.magic.length = 16)
    (hl : ft.length < 4294967296) (hc : ft.crc32 < 4294967296) :
    decodeFooter (writeFooter ft) = ft := by
  obtain ⟨mg, l, c⟩ := ft
  dsimp only at hm hl hc
  unfold writeFooter decodeFooter
  dsimp only
  rw [hm]
  have htk : mg.take 16 = mg := List.take_of_length_le (by omega)
  rw [htk]
  simp only [Nat.sub_self, List.replicate_zero, List.append_nil]
  have e1 : (mg ++ putUint32LE l ++ putUint32LE c).take 16 = mg := by
    rw [List.append_assoc, ← hm]
    exact List.take_left mg _
  have e2 : (mg ++ putUint32LE l ++ putUint32LE c).drop 16
      = putUint32LE l ++ putUint32LE c := by
    rw [List.append_assoc, ← hm]
    exact List.drop_left mg _
  have e3 : (mg ++ putUint32LE l ++ putUint32LE c).drop 20
      = putUint32LE c := by
    have h20 : (20 : Nat) = (mg ++ putUint32LE l).length := by
      simp [putUint32LE, hm]
    rw [h20]
    exact List.drop_left _ _
  rw [e1, e2, e3]
  rw [getUint32LE_putUint32LE l _ hl]
  have hcc : getUint32LE (putUint32LE c) = c := by
    rw [← List.append_nil (putUint32LE c)]
    exact getUint32LE_putUint32LE c [] hc
  rw [hcc]

theorem c7_codec_roundtrip_witness :
    decodeFooter (writeFooter ⟨[9, 8, 7, 6, 5, 4, 3, 2, 1, 0, 9, 8, 7, 6,
        5, 4], 123456, 654321⟩)
      = ⟨[9, 8, 7, 6, 5, 4, 3, 2, 1, 0, 9, 8, 7, 6, 5, 4], 123456,
        654321⟩ :=
  c7_codec_roundtrip ⟨[9, 8, 7, 6, 5, 4, 3, 2, 1, 0, 9, 8, 7, 6, 5, 4],
    123456, 654321⟩ (by decide) (by decide) (by decide)

/-- C8: Schema strictness — `parseConfigJSON` rejects every document
holding a key outside the recognized schema (at either of the schema's
two object levels), rejects every input with a further JSON value after
the first document, and accepts the minimal valid document, exposing its
URL value through the accessor. -/
theorem c8_schema_strictness :
    (∀ d : Json, hasUnrecognizedKey d = true →
      ∃ e, parseConfigJSON [d] = .error e) ∧
    (∀ (d d2 : Json) (rest : List Json),
      ∃ e, parseConfigJSON (d :: d2 :: rest) = .error e) ∧
    (∀ u : String,
      parseConfigJSON
          [Json.obj [("e2e", Json.obj [("beaconUrl", Json.str u)])]]
        = .ok ⟨some ⟨u⟩⟩ ∧
      E2EBeaconURL (some ⟨some ⟨u⟩⟩) = goTrimSpace u) := by
  refine ⟨fun d hd => ?_,
    fun d d2 rest => ?_,
    fun u => ⟨by simp [parseConfigJSON, decodeConfig, decodeConfigObj,
      decodeE2EPtr, decodeE2EObj, jsonKeyMatches], rfl⟩⟩
  · cases d with
    | null => exact absurd hd (by simp [hasUnrecognizedKey])
    | bool b => exact absurd hd (by simp [hasUnrecognizedKey])
    | num lit => exact absurd hd (by simp [hasUnrecognizedKey])
    | str s => exact absurd hd (by simp [hasUnrecognizedKey])
    | arr elems => exact absurd hd (by simp [hasUnrecognizedKey])
    | obj kvs =>
        unfold parseConfigJSON decodeConfig
        dsimp only
        rcases hdec : decodeConfigObj ⟨none⟩ kvs with msg | cfg
        · exact ⟨_, rfl⟩
        · exfalso
          have hkeys := decodeConfigObj_ok_keys hdec
          unfold hasUnrecognizedKey at hd
          rw [List.any_eq_true] at hd
          obtain ⟨kv, hmem, hcond⟩ := hd
          obtain ⟨hk, hnest⟩ := hkeys kv hmem
          rw [hk] at hcond
          simp only [Bool.not_true, Bool.false_or] at hcond
          rcases hv : kv.2 with _ | b | lit | s | elems | kvs2 <;>
            rw [hv] at hcond
          · exact absurd hcond (by simp)
          · exact absurd hcond (by simp)
          · exact absurd hcond (by simp)
          · exact absurd hcond (by simp)
          · exact absurd hcond (by simp)
          · rw [List.any_eq_true] at hcond
            obtain ⟨kv2, hmem2, hx⟩ := hcond
            rw [hnest kvs2 hv kv2 hmem2] at hx
            exact absurd hx (by simp)
  · unfold parseConfigJSON
    dsimp only
    rcases hdec : decodeConfig d with msg | cfg
    · exact ⟨_, rfl⟩
    · exact ⟨_, rfl⟩

theorem c8_schema_strictness_witness :
    (∃ e, parseConfigJSON [Json.obj [("e2e",
        Json.obj [("beaconUrl", Json.str "http://x")]),
        ("extra", Json.bool true)]] = .error e) ∧
    (∃ e, parseConfigJSON [Json.null, Json.null] = .error e) ∧
    parseConfigJSON
        [Json.obj [("e2e", Json.obj [("beaconUrl",
          Json.str "http://example")])]]
      = .ok ⟨some ⟨"http://example"⟩⟩ :=
  ⟨c8_schema_strictness.1 (Json.obj [("e2e",
      Json.obj [("beaconUrl", Json.str "http://x")]),
      ("extra", Json.bool true)]) (by decide),
    c8_schema_strictness.2.1 Json.null Json.null [],
    (c8_schema_strictness.2.2 "http://example").1⟩

/-- C9: The installer's base-size computation validates neither the
maximum-length bound nor the checksum of an existing payload — whenever
the file ends in a valid-magic trailer with length L and the implied
offset is non-negative, installing any valid payload succeeds and strips
exactly L + 24 trailing bytes, with no hypothesis bounding L by the
maximum size or relating the stored checksum to the stored bytes. -/
theorem c9_install_skips_payload_validation (f : List Nat) (m : Nat)
    (P : List Nat) (ft : Footer) (hft : readFooter f = some ft)
    (hoff : 0 ≤ (f.length : Int) - (footerSize : Int) - (ft.length : Int))
    (h1 : 1 ≤ P.length) (h2 : P.length ≤ maxConfigSize) :
    EmbedConfigDataIntoExecutable f m P
      = .ok (f.take (f.length - (ft.length + footerSize)) ++ P
          ++ trailerBytes P, m) := by
  rw [embed_withFooter f m P ft hft hoff h1 h2]
  have hsub : f.length - footerSize - ft.length
      = f.length - (ft.length + footerSize) := by omega
  rw [hsub]

theorem c9_install_skips_payload_validation_witness :
    (∃ e, loadEmbeddedConfigData ([65, 66] ++ [1, 2, 3]
        ++ (footerMagic ++ putUint32LE 3 ++ putUint32LE 0)) = .error e) ∧
    EmbedConfigDataIntoExecutable ([65, 66] ++ [1, 2, 3]
        ++ (footerMagic ++ putUint32LE 3 ++ putUint32LE 0)) 448 [9]
      = .ok (([65, 66] ++ [1, 2, 3]
          ++ (footerMagic ++ putUint32LE 3 ++ putUint32LE 0)).take
            (([65, 66] ++ [1, 2, 3] ++ (footerMagic ++ putUint32LE 3
              ++ putUint32LE 0)).length - (3 + footerSize)) ++ [9]
          ++ trailerBytes [9], 448) :=
  ⟨⟨"embedded config checksum mismatch", rfl⟩,
    c9_install_skips_payload_validation ([65, 66] ++ [1, 2, 3]
      ++ (footerMagic ++ putUint32LE 3 ++ putUint32LE 0)) 448 [9]
      ⟨footerMagic, 3, 0⟩ (by decide) (by decide) (by decide) (by decide)⟩

/-- C10: The strict parser accepts non-object and empty documents —
`parseConfigJSON` succeeds on the JSON document null and on the empty
JSON object, returning in both cases a configuration whose beacon URL
accessor yields the empty string. -/
theorem c10_parser_accepts_null_and_empty_object :
    parseConfigJSON [Json.null] = .ok ⟨none⟩ ∧
    parseConfigJSON [Json.obj []] = .ok ⟨none⟩ ∧
    E2EBeaconURL (some ⟨none⟩) = "" :=
  ⟨rfl, rfl, rfl⟩

end Kubesnake
